import Mathlib

/-
  Shallow embedding of the timely issue-triage pipeline.

  Source files embedded here:
  - feature_engineering.py : TextFeatureExtractor (basic features, TF-IDF slots,
    embedding slots, repo encoding, feature order)
  - smart_triage.py : SmartIssueTriage.get_recommendations / predict
  - app.py : format_tags

  Machine reals (Python floats) are modelled as exact rationals; the opaque
  TF-IDF vectorizer, sentence-embedding model and classifier are parameters
  (functions producing numeric vectors), as the spec treats them as black-box
  transformers.
-/

namespace Timely

/-- Number of non-overlapping occurrences of the pattern `pat` in a character
list, scanning left to right and, on a match, skipping the rest of the
matched pattern (the `skip` counter holds how many characters of the current
match are still to be passed over).  This is the semantics of the Python
builtin `str.count` for a non-empty pattern. -/
def countNonOverlap (pat : List Char) : Nat → List Char → Nat
  | _, [] => 0
  | 0, c :: rest =>
    if pat.isPrefixOf (c :: rest) then
      1 + countNonOverlap pat (pat.length - 1) rest
    else
      countNonOverlap pat 0 rest
  | k + 1, _ :: rest => countNonOverlap pat k rest

/-- Python `s.count(pat)` for non-empty `pat`. -/
def pyCount (s pat : String) : Nat :=
  countNonOverlap pat.toList 0 s.toList

/-- Python `s.lower()` (character-wise lowering). -/
def pyLower (s : String) : String :=
  String.mk (s.toList.map Char.toLower)

/-- Python `c in s` for a single character `c`. -/
def pyContains (s : String) (c : Char) : Bool :=
  s.toList.contains c

/-- Count of maximal non-whitespace runs; the flag records whether the scan
is inside a run. -/
def countRuns (inWord : Bool) : List Char → Nat
  | [] => 0
  | c :: rest =>
    if c.isWhitespace then countRuns false rest
    else (if inWord then 0 else 1) + countRuns true rest

/-- Python `len(s.split())`: the number of whitespace-separated words. -/
def pyWordCount (s : String) : Nat :=
  countRuns false s.toList

/-- The fixed question-word list of `extract_basic_features`. -/
def question_words : List String :=
  ["how", "what", "why", "when", "where", "which", "who"]

/-- The fixed urgency-word list of `extract_basic_features`. -/
def urgent_words : List String :=
  ["urgent", "critical", "asap", "immediate", "emergency",
   "broken", "error", "serious", "security"]

/-- Sum over a fixed word list of the case-insensitive substring counts in `s`,
as in `sum(s.lower().count(word) for word in words)`. -/
def countWordList (words : List String) (s : String) : Nat :=
  (words.map (fun w => pyCount (pyLower s) w)).sum

/-- The scalar structural features computed by
`TextFeatureExtractor.extract_basic_features`, in the dict the code builds.
The first four fields are training-time fields: the code sets every feature
to 0 up front and never assigns these four again. -/
structure BasicFeatures where
  created_hour : Nat
  created_day_of_week : Nat
  created_month : Nat
  n_days_to_resolution : Nat
  title_length : Nat
  body_length : Nat
  title_word_count : Nat
  body_word_count : Nat
  code_block_count : Nat
  url_count : Nat
  title_question_word_count : Nat
  title_has_question_mark : Nat
  body_question_word_count : Nat
  body_has_question_mark : Nat
  total_question_word_count : Nat
  total_has_question_mark : Nat
  includes_questions : Nat
  title_n_urgent_words : Nat
  title_has_exclamation : Nat
  body_n_urgent_words : Nat
  body_has_exclamation : Nat
  total_n_urgent_words : Nat
  total_has_exclamation : Nat
  urgency_score : Nat
deriving DecidableEq, Repr

/-- Embedding of `TextFeatureExtractor.extract_basic_features(text, title, body)`.
The `text` argument is accepted but unused, exactly as in the source. -/
def extract_basic_features (_text title body : String) : BasicFeatures :=
  let tqw := countWordList question_words title
  let bqw := countWordList question_words body
  let tqm := (pyContains title '?').toNat
  let bqm := (pyContains body '?').toNat
  let tex := (pyContains title '!').toNat
  let bex := (pyContains body '!').toNat
  let tuw := countWordList urgent_words title
  let buw := countWordList urgent_words body
  { created_hour := 0
    created_day_of_week := 0
    created_month := 0
    n_days_to_resolution := 0
    title_length := title.length
    body_length := body.length
    title_word_count := pyWordCount title
    body_word_count := pyWordCount body
    code_block_count := pyCount body "```" / 2
    url_count := pyCount (pyLower body) "http"
    title_question_word_count := tqw
    title_has_question_mark := tqm
    body_question_word_count := bqw
    body_has_question_mark := bqm
    total_question_word_count := tqw + bqw
    total_has_question_mark := tqm + bqm
    includes_questions := if 0 < tqw + bqw ∨ 0 < tqm + bqm then 1 else 0
    title_n_urgent_words := tuw
    title_has_exclamation := tex
    body_n_urgent_words := buw
    body_has_exclamation := bex
    total_n_urgent_words := tuw + buw
    total_has_exclamation := tex + bex
    urgency_score := (tuw + buw) + (tex + bex) }

/-- The frozen feature order of `TextFeatureExtractor.__init__`: 24 structural
fields, `repo_encoded`, 250 TF-IDF slots, 384 embedding slots. -/
def feature_order : List String :=
  ["created_hour", "created_day_of_week", "created_month", "n_days_to_resolution",
   "title_length", "body_length", "title_word_count", "body_word_count",
   "code_block_count", "url_count", "title_question_word_count",
   "title_has_question_mark", "body_question_word_count", "body_has_question_mark",
   "total_question_word_count", "total_has_question_mark", "includes_questions",
   "title_n_urgent_words", "title_has_exclamation", "body_n_urgent_words",
   "body_has_exclamation", "total_n_urgent_words", "total_has_exclamation",
   "urgency_score", "repo_encoded"]
  ++ (List.range 250).map (fun i => "tfidf_" ++ toString i)
  ++ (List.range 384).map (fun i => "bert_" ++ toString i)

/-- The single DataFrame row assembled by `extract_all_features`, in the frozen
feature order.  The TF-IDF and embedding slots take `vec[i]` when `i` is inside
the vector and 0 otherwise, as in `extract_tfidf_features` and
`extract_bert_features`. -/
def featureRow (bf : BasicFeatures) (repoEncoded : Nat)
    (tfidf bertv : List ℚ) : List ℚ :=
  ([bf.created_hour, bf.created_day_of_week, bf.created_month,
    bf.n_days_to_resolution, bf.title_length, bf.body_length,
    bf.title_word_count, bf.body_word_count, bf.code_block_count,
    bf.url_count, bf.title_question_word_count, bf.title_has_question_mark,
    bf.body_question_word_count, bf.body_has_question_mark,
    bf.total_question_word_count, bf.total_has_question_mark,
    bf.includes_questions, bf.title_n_urgent_words, bf.title_has_exclamation,
    bf.body_n_urgent_words, bf.body_has_exclamation, bf.total_n_urgent_words,
    bf.total_has_exclamation, bf.urgency_score, repoEncoded].map
      (fun n => (n : ℚ)))
  ++ (List.range 250).map (fun i => tfidf.getD i 0)
  ++ (List.range 384).map (fun i => bertv.getD i 0)

/-- Modelled from the spec: the fitted sklearn `LabelEncoder.transform` used
for `repo_encoded` is library code not under src/.  Per the spec, the frozen
vocabulary is an injective name-to-id mapping that rejects unknown names
rather than defaulting; a name in the vocabulary maps to its index, an unseen
name raises (here: `none`). -/
def encoderTransform : List String → String → Option Nat
  | [], _ => none
  | c :: cs, x => if c = x then some 0 else (encoderTransform cs x).map (· + 1)

/-- Embedding of `TextFeatureExtractor.extract_all_features(text, repo,
repo_encoder)`.  `text.split('\n', 1)` yields the title (up to the first
newline) and the remaining body.  The opaque TF-IDF vectorizer and embedding
model are the parameters `vec` and `bertm`.  Returns `none` where the source
raises. -/
def extract_all_features (vec bertm : String → List ℚ)
    (text repo : String) (repoClasses : List String) : Option (List ℚ) :=
  let title := String.mk (text.toList.takeWhile (fun c => c != '\n'))
  let body := String.mk
    ((text.toList.dropWhile (fun c => c != '\n')).drop 1)
  let bf := extract_basic_features text title body
  match encoderTransform repoClasses repo with
  | none => none
  | some re => some (featureRow bf re (vec text) (bertm text))

/-- One suggested category with its confidence, as produced by
`SmartIssueTriage.get_recommendations`. -/
structure Suggestion where
  category : String
  confidence : ℚ
  action_needed : Bool
deriving DecidableEq, Repr

/-- One triage recommendation record. -/
structure TriageRec where
  type : String
  message : String
  priority : String
deriving DecidableEq, Repr

/-- The repository context block added by `SmartIssueTriage.predict`. -/
structure RepoContext where
  repository : String
  typical_response_time : String
  similar_issues_count : Nat
deriving DecidableEq, Repr

/-- The result dict of `get_recommendations` and `predict`; `repo_context` is
`none` until `predict` fills it in. -/
structure Recommendations where
  primary_category : Suggestion
  secondary_suggestions : List Suggestion
  triage_recommendations : List TriageRec
  repo_context : Option RepoContext
deriving DecidableEq, Repr

/-- The descending-confidence comparison used to sort `(class, probability)`
pairs; `pred_confidence.sort(key=..., reverse=True)` is a stable sort under
this relation. -/
def confGE (a b : String × ℚ) : Prop := b.2 ≤ a.2

instance : DecidableRel confGE := fun a b => inferInstanceAs (Decidable (b.2 ≤ a.2))

/-- Lines 55-59 of smart_triage.py: pair every class label with its
probability and stably sort by probability descending. -/
def rankPairs (classes : List String) (proba : List ℚ) : List (String × ℚ) :=
  List.insertionSort confGE (classes.zip proba)

/-- Build a suggestion entry: `action_needed` is true exactly for the
actionable categories. -/
def mkSuggestion (p : String × ℚ) : Suggestion :=
  ⟨p.1, p.2, p.1 == "is_bug_cat" || p.1 == "is_priority_cat"⟩

/-- Half of a rational, in a kernel-computable form; `halfRat_eq_div` below
shows it is exactly the source expression `threshold / 2`. -/
def halfRat (q : ℚ) : ℚ :=
  mkRat q.num (q.den * 2)

/-- The `low_confidence` recommendation record. -/
def lowConfidenceRec : TriageRec :=
  ⟨"low_confidence", "Low confidence prediction - Manual review recommended",
   "medium"⟩

/-- The category/confidence rule table of `get_recommendations` (the
`if primary_cat == ...` chain); thresholds are high = 4/5, medium = 3/5,
compared strictly as in the source. -/
def baseTriageRecs (cat : String) (conf : ℚ) : List TriageRec :=
  if cat = "is_bug_cat" then
    if mkRat 4 5 < conf then
      [⟨"high_confidence_bug",
        "High confidence bug report - Immediate review recommended", "high"⟩]
    else if mkRat 3 5 < conf then
      [⟨"medium_confidence_bug",
        "Medium confidence bug report - Review within 24 hours", "medium"⟩]
    else []
  else if cat = "is_feature_cat" then
    if mkRat 3 5 < conf then
      [⟨"clear_feature_request",
        "Clear feature request - Add to product backlog", "medium"⟩]
    else []
  else if cat = "is_doc_cat" then
    if mkRat 3 5 < conf then
      [⟨"documentation",
        "Documentation issue - Tag for docs team review", "medium"⟩]
    else []
  else []

/-- Embedding of `SmartIssueTriage.get_recommendations`, taking the classifier
output (the per-class probability vector, paired with the decoded class list)
as input.  Secondary suggestions are ranks 1-2 with confidence strictly above
`threshold`; when the primary confidence is strictly below 2/5 the code
appends a low-confidence recommendation and EXTENDS the secondary list with
ranks 1-3 above half the threshold.  An empty probability vector makes
`pred_confidence[0]` raise, hence `none`. -/
def get_recommendations (classes : List String) (proba : List ℚ)
    (threshold : ℚ) : Option Recommendations :=
  match rankPairs classes proba with
  | [] => none
  | p0 :: rest =>
    let secondary :=
      ((rest.take 2).filter (fun x => threshold < x.2)).map mkSuggestion
    let base := baseTriageRecs p0.1 p0.2
    if p0.2 < mkRat 2 5 then
      some ⟨mkSuggestion p0,
            secondary ++
              ((rest.take 3).filter
                (fun x => halfRat threshold < x.2)).map mkSuggestion,
            base ++ [lowConfidenceRec], none⟩
    else
      some ⟨mkSuggestion p0, secondary, base, none⟩

/-- Modelled from the spec: the fitted sklearn category `LabelEncoder` and its
`inverse_transform` are library code not under src/.  Per the spec, class
order is the frozen vocabulary decoded by integer rank 0..N-1; an id outside
the vocabulary raises. -/
def inverse_transform (labelClasses : List String) (n : Nat) :
    Option (List String) :=
  if n ≤ labelClasses.length then some (labelClasses.take n) else none

/-- Embedding of `SmartIssueTriage.predict(title, body, repo, threshold)`:
join title and body with a newline, extract features, run the opaque
classifier `predictProba`, decode class labels, rank, and attach the
hard-coded repository context. -/
def predict (vec bertm : String → List ℚ) (predictProba : List ℚ → List ℚ)
    (labelClasses repoClasses : List String)
    (title body repo : String) (threshold : ℚ) : Option Recommendations :=
  match extract_all_features vec bertm (title ++ "\n" ++ body) repo
      repoClasses with
  | none => none
  | some feats =>
    match inverse_transform labelClasses (predictProba feats).length with
    | none => none
    | some classes =>
      match get_recommendations classes (predictProba feats) threshold with
      | none => none
      | some recs =>
        some { recs with repo_context := some ⟨repo, "2-3 days", 5⟩ }

/-- Embedding of `format_tags(pred, min_conf=0.30)` from app.py: collect the
primary category and the secondary suggestions whose confidence is at least
`min_conf`, stably sort by confidence descending, and keep the top 3. -/
def format_tags (pred : Recommendations) (min_conf : ℚ) :
    List (String × ℚ) :=
  let tags :=
    (if min_conf ≤ pred.primary_category.confidence then
      [(pred.primary_category.category, pred.primary_category.confidence)]
    else [])
    ++ (pred.secondary_suggestions.filter
          (fun s => min_conf ≤ s.confidence)).map
        (fun s => (s.category, s.confidence))
  (List.insertionSort confGE tags).take 3

/-- The result of the concrete widened-path run used to instantiate the C1
amended theorem: primary confidence 7/20 is below the low cut, so ranks 1-3
above half the threshold are appended to the already-filtered ranks 1-2. -/
def recWidenedDemo : Recommendations :=
  ⟨⟨"a", mkRat 7 20, false⟩,
   [⟨"b", mkRat 1 4, false⟩, ⟨"c", mkRat 11 50, false⟩,
    ⟨"b", mkRat 1 4, false⟩, ⟨"c", mkRat 11 50, false⟩,
    ⟨"d", mkRat 9 50, false⟩],
   [lowConfidenceRec], some ⟨"r", "2-3 days", 5⟩⟩

/-- The result of a concrete high-confidence bug run (confidence 17/20) used
to instantiate the C3 amended theorem. -/
def recHighBugDemo : Recommendations :=
  ⟨⟨"is_bug_cat", mkRat 17 20, true⟩, [],
   [⟨"high_confidence_bug",
     "High confidence bug report - Immediate review recommended", "high"⟩],
   none⟩

/-- The result of a concrete stub-classifier `predict` run used to
instantiate the C10 theorem. -/
def recStubDemo : Recommendations :=
  ⟨⟨"bug", mkRat 9 10, false⟩, [], [], some ⟨"r", "2-3 days", 5⟩⟩

/-! Helper lemmas about the embedded definitions. -/

instance : IsTotal (String × ℚ) confGE :=
  ⟨fun a b => le_total b.2 a.2⟩

instance : IsTrans (String × ℚ) confGE :=
  ⟨fun _ _ _ h1 h2 => le_trans h2 h1⟩

/-- The computable halving agrees with the source expression `threshold / 2`. -/
lemma halfRat_eq_div (q : ℚ) : halfRat q = q / 2 := by
  rw [halfRat, Rat.mkRat_eq_div]
  push_cast
  rw [div_mul_eq_div_div, Rat.num_div_den q]

/-- The ranked pair list is sorted by confidence descending. -/
lemma sorted_rankPairs (classes : List String) (proba : List ℚ) :
    (rankPairs classes proba).Pairwise confGE :=
  List.sorted_insertionSort confGE (classes.zip proba)

/-- The ranked pair list is a permutation of the zipped class/probability
pairs. -/
lemma rankPairs_perm (classes : List String) (proba : List ℚ) :
    (rankPairs classes proba).Perm (classes.zip proba) :=
  List.perm_insertionSort confGE (classes.zip proba)

/-- Every confidence appearing among the ranked pairs is one of the input
probabilities. -/
lemma snd_mem_proba_of_mem_rankPairs {classes : List String} {proba : List ℚ}
    {x : String × ℚ} (hx : x ∈ rankPairs classes proba) : x.2 ∈ proba := by
  have hz : x ∈ classes.zip proba := (List.mem_insertionSort confGE).1 hx
  exact (List.of_mem_zip hz).2

/-- An unseen name makes the frozen-vocabulary encoder fail. -/
lemma encoderTransform_eq_none {l : List String} {x : String} (h : x ∉ l) :
    encoderTransform l x = none := by
  induction l with
  | nil => rfl
  | cons c cs ih =>
    have hcx : ¬ c = x := fun hc => h (hc ▸ List.mem_cons_self c cs)
    simp only [encoderTransform, if_neg hcx]
    rw [ih (fun hx => h (List.mem_cons_of_mem c hx))]
    rfl

/-- A name in the vocabulary is encoded to some id. -/
lemma encoderTransform_isSome {l : List String} {x : String} (h : x ∈ l) :
    ∃ n, encoderTransform l x = some n := by
  induction l with
  | nil => cases h
  | cons c cs ih =>
    by_cases hcx : c = x
    · exact ⟨0, by simp [encoderTransform, hcx]⟩
    · rcases ih (by
        rcases List.mem_cons.1 h with h1 | h1
        · exact absurd h1.symm hcx
        · exact h1) with ⟨n, hn⟩
      exact ⟨n + 1, by simp [encoderTransform, hcx, hn]⟩

/-- The assembled row always has 25 + 250 + 384 = 659 entries. -/
lemma featureRow_length (bf : BasicFeatures) (re : Nat) (tfidf bertv : List ℚ) :
    (featureRow bf re tfidf bertv).length = 659 := by
  simp [featureRow]

/-- Inserting a pair into a list keeps the sub-sequence of any fixed
confidence value intact: the inserted element lands before every element of
equal confidence, because all elements passed over have strictly larger
confidence. -/
lemma filter_orderedInsert_conf (p : ℚ) (a : String × ℚ)
    (l : List (String × ℚ)) :
    (List.orderedInsert confGE a l).filter (fun x => decide (x.2 = p)) =
      if a.2 = p then a :: l.filter (fun x => decide (x.2 = p))
      else l.filter (fun x => decide (x.2 = p)) := by
  induction l with
  | nil =>
    simp only [List.orderedInsert, List.filter]
    by_cases h : a.2 = p <;> simp [h]
  | cons b l ih =>
    by_cases hab : confGE a b
    · simp only [List.orderedInsert, if_pos hab, List.filter]
      by_cases h : a.2 = p <;> simp [h]
    · have hlt : a.2 < b.2 := lt_of_not_le hab
      simp only [List.orderedInsert, if_neg hab, List.filter]
      by_cases hb : b.2 = p
      · have ha : ¬ a.2 = p := by
          intro h
          rw [h, hb] at hlt
          exact lt_irrefl p hlt
        simp [hb, ha, ih]
      · by_cases ha : a.2 = p <;> simp [hb, ha, ih]

/-- Stability of the ranking sort: for every confidence value, the sorted
list restricted to that value is the original list restricted to that
value. -/
lemma filter_insertionSort_conf (p : ℚ) (l : List (String × ℚ)) :
    (List.insertionSort confGE l).filter (fun x => decide (x.2 = p)) =
      l.filter (fun x => decide (x.2 = p)) := by
  induction l with
  | nil => rfl
  | cons a l ih =>
    simp only [List.insertionSort, filter_orderedInsert_conf, List.filter]
    by_cases h : a.2 = p <;> simp [h, ih]

/-- Any successful `predict` decomposes into the pipeline stages. -/
lemma predict_decomp {vec bertm : String → List ℚ}
    {predictProba : List ℚ → List ℚ} {labelClasses repoClasses : List String}
    {title body repo : String} {threshold : ℚ} {r : Recommendations}
    (h : predict vec bertm predictProba labelClasses repoClasses title body
      repo threshold = some r) :
    ∃ feats classes recs,
      extract_all_features vec bertm (title ++ "\n" ++ body) repo repoClasses
        = some feats ∧
      inverse_transform labelClasses (predictProba feats).length
        = some classes ∧
      get_recommendations classes (predictProba feats) threshold
        = some recs ∧
      r = { recs with repo_context := some ⟨repo, "2-3 days", 5⟩ } := by
  unfold predict at h
  split at h
  · cases h
  · rename_i feats hf
    split at h
    · cases h
    · rename_i classes hc
      split at h
      · cases h
      · rename_i recs hr
        exact ⟨feats, classes, recs, hf, hc, hr, (Option.some_inj.1 h).symm⟩

/-- Suggestions built by mapping `mkSuggestion` over a filtered list come
from the underlying pair list. -/
lemma mem_of_mem_map_mkSuggestion {l : List (String × ℚ)} {s : Suggestion}
    {q : String × ℚ → Bool} (h : s ∈ (l.filter q).map mkSuggestion) :
    ∃ x ∈ l, s = mkSuggestion x := by
  rcases List.mem_map.1 h with ⟨x, hx, rfl⟩
  exact ⟨x, (List.mem_filter.1 hx).1, rfl⟩

/-- Core bounds for `get_recommendations`: probabilistic confidences, at most
1 + 5 categories in total, and, when the primary confidence is at least the
low cut-point 2/5 (so the widening branch is not taken), at most 3 categories
sorted by confidence descending. -/
lemma get_recommendations_bounds (classes : List String) (proba : List ℚ)
    (threshold : ℚ) (r : Recommendations)
    (hp : ∀ q ∈ proba, 0 ≤ q ∧ q ≤ 1)
    (h : get_recommendations classes proba threshold = some r) :
    (0 ≤ r.primary_category.confidence ∧ r.primary_category.confidence ≤ 1) ∧
    (∀ s ∈ r.secondary_suggestions,
      0 ≤ s.confidence ∧ s.confidence ≤ 1) ∧
    1 + r.secondary_suggestions.length ≤ 6 ∧
    (mkRat 2 5 ≤ r.primary_category.confidence →
      1 + r.secondary_suggestions.length ≤ 3 ∧
      (r.primary_category.confidence ::
        r.secondary_suggestions.map (fun s => s.confidence)).Pairwise
        (fun a b => b ≤ a)) := by
  cases hrank : rankPairs classes proba with
  | nil => simp [get_recommendations, hrank] at h
  | cons p0 rest =>
    have hp0 : p0 ∈ rankPairs classes proba := by
      rw [hrank]; exact List.mem_cons_self p0 rest
    have hrest : ∀ x ∈ rest, x ∈ rankPairs classes proba := by
      intro x hx
      rw [hrank]
      exact List.mem_cons_of_mem p0 hx
    have hp0conf : 0 ≤ p0.2 ∧ p0.2 ≤ 1 :=
      hp p0.2 (snd_mem_proba_of_mem_rankPairs hp0)
    have hsecconf : ∀ (k : Nat) (q : String × ℚ → Bool),
        ∀ s ∈ ((rest.take k).filter q).map mkSuggestion,
          0 ≤ s.confidence ∧ s.confidence ≤ 1 := by
      intro k q s hs
      rcases mem_of_mem_map_mkSuggestion hs with ⟨x, hx, rfl⟩
      exact hp x.2 (snd_mem_proba_of_mem_rankPairs
        (hrest x (List.mem_of_mem_take hx)))
    have hlen : ∀ (k : Nat) (q : String × ℚ → Bool),
        (((rest.take k).filter q).map mkSuggestion).length ≤ k := by
      intro k q
      rw [List.length_map]
      exact le_trans ((rest.take k).length_filter_le q)
        (List.length_take_le k rest)
    simp only [get_recommendations, hrank] at h
    by_cases hlow : p0.2 < mkRat 2 5
    · rw [if_pos hlow] at h
      injection h with h
      subst h
      refine ⟨hp0conf, ?_, ?_, ?_⟩
      · intro s hs
        rcases List.mem_append.1 hs with hs | hs
        · exact hsecconf 2 _ s hs
        · exact hsecconf 3 _ s hs
      · simp only [List.length_append]
        have h2 := hlen 2 (fun x => threshold < x.2)
        have h3 := hlen 3 (fun x => halfRat threshold < x.2)
        omega
      · intro hge
        exact absurd hlow (not_lt.2 hge)
    · rw [if_neg hlow] at h
      injection h with h
      subst h
      have hpw : (p0 :: rest).Pairwise confGE := by
        rw [← hrank]; exact sorted_rankPairs classes proba
      have hsub : List.Sublist
          ((rest.take 2).filter (fun x => threshold < x.2)) rest :=
        (List.filter_sublist (rest.take 2)).trans (List.take_sublist 2 rest)
      refine ⟨hp0conf, fun s hs => hsecconf 2 _ s hs, ?_, fun _ => ⟨?_, ?_⟩⟩
      · show 1 + (((rest.take 2).filter
            (fun x => threshold < x.2)).map mkSuggestion).length ≤ 6
        have h2 := hlen 2 (fun x => threshold < x.2)
        omega
      · show 1 + (((rest.take 2).filter
            (fun x => threshold < x.2)).map mkSuggestion).length ≤ 3
        have h2 := hlen 2 (fun x => threshold < x.2)
        omega
      · have hpw2 : (p0 :: (rest.take 2).filter
            (fun x => threshold < x.2)).Pairwise confGE :=
          hpw.sublist (hsub.cons₂ p0)
        have hmm : (((rest.take 2).filter
              (fun x => threshold < x.2)).map mkSuggestion).map
              (fun s => s.confidence) =
            ((rest.take 2).filter (fun x => threshold < x.2)).map
              (fun x => x.2) := by
          rw [List.map_map]
          rfl
        show List.Pairwise (fun a b => b ≤ a)
          (p0.2 :: (((rest.take 2).filter
            (fun x => threshold < x.2)).map mkSuggestion).map
              (fun s => s.confidence))
        rw [hmm]
        show List.Pairwise (fun a b => b ≤ a)
          ((p0 :: (rest.take 2).filter (fun x => threshold < x.2)).map
            (fun x => x.2))
        exact List.pairwise_map.2 hpw2

/-- A high-confidence-bug entry appears in the rule-table output exactly for
the actionable bug category with confidence strictly above 4/5. -/
lemma high_rec_mem_base (cat : String) (conf : ℚ) :
    (∃ t ∈ baseTriageRecs cat conf,
        t.type = "high_confidence_bug" ∧ t.priority = "high") ↔
      (cat = "is_bug_cat" ∧ mkRat 4 5 < conf) := by
  unfold baseTriageRecs
  split_ifs <;> simp_all

/-! Claim theorems. -/

/-- C1 counterexample: the claim that `predict` returns at most 3 suggested
categories in total fails on the widening path.  With a stub classifier
giving probabilities 7/20, 1/4, 11/50, 9/50 and the default threshold 1/5,
the primary confidence 7/20 is below the low cut, so ranks 1-3 above half
the threshold are appended to the already-kept ranks 1-2: the result has
1 + 5 = 6 suggested categories, and the secondary confidences
1/4, 11/50, 1/4, 11/50, 9/50 are not descending. -/
theorem C1_counterexample :
    (predict (fun _ => []) (fun _ => [])
        (fun _ => [mkRat 7 20, mkRat 1 4, mkRat 11 50, mkRat 9 50])
        ["a", "b", "c", "d"] ["r"] "t" "b" "r" (mkRat 1 5)).map
      (fun r => (1 + r.secondary_suggestions.length,
        r.secondary_suggestions.map (fun s => s.confidence)))
      = some (6, [mkRat 1 4, mkRat 11 50, mkRat 1 4, mkRat 11 50,
          mkRat 9 50]) ∧
    ¬ (6 ≤ 3) := by
  constructor
  · decide
  · decide

/-- C1 (amended): for every valid input and threshold, provided the
classifier emits probabilities in [0,1], every confidence returned by
`predict` lies in [0,1]; the result contains at most 6 suggested categories
in total (primary plus secondary list), and when the primary confidence is
at least the low cut-point 2/5 - so the widening path is not taken - the
total is at most 3 and the suggestions are ordered by confidence
descending. -/
theorem C1_predict_suggestion_bounds (vec bertm : String → List ℚ)
    (predictProba : List ℚ → List ℚ) (labelClasses repoClasses : List String)
    (title body repo : String) (threshold : ℚ) (r : Recommendations)
    (hp : ∀ feats, ∀ q ∈ predictProba feats, 0 ≤ q ∧ q ≤ 1)
    (h : predict vec bertm predictProba labelClasses repoClasses title body
      repo threshold = some r) :
    (0 ≤ r.primary_category.confidence ∧ r.primary_category.confidence ≤ 1) ∧
    (∀ s ∈ r.secondary_suggestions,
      0 ≤ s.confidence ∧ s.confidence ≤ 1) ∧
    1 + r.secondary_suggestions.length ≤ 6 ∧
    (mkRat 2 5 ≤ r.primary_category.confidence →
      1 + r.secondary_suggestions.length ≤ 3 ∧
      (r.primary_category.confidence ::
        r.secondary_suggestions.map (fun s => s.confidence)).Pairwise
        (fun a b => b ≤ a)) := by
  rcases predict_decomp h with ⟨feats, classes, recs, _, _, hr, hrr⟩
  subst hrr
  exact get_recommendations_bounds classes (predictProba feats) threshold
    recs (hp feats) hr

/-- C1 witness: the amended bounds instantiated at the concrete widened-path
run of `C1_counterexample`. -/
theorem C1_bounds_witness :
    (predict (fun _ => []) (fun _ => [])
        (fun _ => [mkRat 7 20, mkRat 1 4, mkRat 11 50, mkRat 9 50])
        ["a", "b", "c", "d"] ["r"] "t" "b" "r" (mkRat 1 5)
      = some recWidenedDemo) ∧
    ((0 ≤ recWidenedDemo.primary_category.confidence ∧
        recWidenedDemo.primary_category.confidence ≤ 1) ∧
      (∀ s ∈ recWidenedDemo.secondary_suggestions,
        0 ≤ s.confidence ∧ s.confidence ≤ 1) ∧
      1 + recWidenedDemo.secondary_suggestions.length ≤ 6 ∧
      (mkRat 2 5 ≤ recWidenedDemo.primary_category.confidence →
        1 + recWidenedDemo.secondary_suggestions.length ≤ 3 ∧
        (recWidenedDemo.primary_category.confidence ::
          recWidenedDemo.secondary_suggestions.map
            (fun s => s.confidence)).Pairwise (fun a b => b ≤ a))) :=
  ⟨by decide,
   C1_predict_suggestion_bounds (fun _ => []) (fun _ => [])
     (fun _ => [mkRat 7 20, mkRat 1 4, mkRat 11 50, mkRat 9 50])
     ["a", "b", "c", "d"] ["r"] "t" "b" "r" (mkRat 1 5) recWidenedDemo
     (by
       intro feats
       show ∀ q ∈ [mkRat 7 20, mkRat 1 4, mkRat 11 50, mkRat 9 50],
         0 ≤ q ∧ q ≤ 1
       decide)
     (by decide)⟩

/-- C2 counterexample: with the stub classifier returning probabilities
9/10, 1/20, 3/100, 1/50 over classes bug, feature, doc, other, the
simple-mode pipeline (predict followed by `format_tags` at its default
minimum confidence 3/10) returns only the single tag (bug, 9/10): the
claimed threshold-independent top-3 list with feature and doc is not
produced, because `format_tags` drops tags below `min_conf` and the
secondary suggestions were already filtered by the predict threshold. -/
theorem C2_counterexample :
    (predict (fun _ => []) (fun _ => [])
        (fun _ => [mkRat 9 10, mkRat 1 20, mkRat 3 100, mkRat 1 50])
        ["bug", "feature", "doc", "other"] ["r"] "t" "b" "r"
        (mkRat 1 5)).map (fun p => format_tags p (mkRat 3 10))
      = some [("bug", mkRat 9 10)] ∧
    [("bug", mkRat 9 10)] ≠
      [("bug", mkRat 9 10), ("feature", mkRat 1 20), ("doc", mkRat 3 100)] := by
  constructor
  · decide
  · decide

/-- C2 (amended): in simple (tag-suggestion) mode, `format_tags` returns at
most 3 tags, each drawn from the primary category or the secondary
suggestions of the prediction, each with confidence at least `min_conf`
(default 3/10), ordered by confidence descending; it is not
threshold-independent, and on the stub classifier of `C2_counterexample`
the result is exactly [(bug, 9/10)]. -/
theorem C2_format_tags_top3 (pred : Recommendations) (min_conf : ℚ) :
    (format_tags pred min_conf).length ≤ 3 ∧
    (∀ t ∈ format_tags pred min_conf, min_conf ≤ t.2) ∧
    (format_tags pred min_conf).Pairwise (fun a b => b.2 ≤ a.2) ∧
    (∀ t ∈ format_tags pred min_conf,
      t = (pred.primary_category.category,
        pred.primary_category.confidence) ∨
      ∃ s ∈ pred.secondary_suggestions,
        t = (s.category, s.confidence)) := by
  have hmemtags : ∀ t ∈ format_tags pred min_conf,
      t ∈ ((if min_conf ≤ pred.primary_category.confidence then
          [(pred.primary_category.category,
            pred.primary_category.confidence)]
        else [])
        ++ (pred.secondary_suggestions.filter
              (fun s => min_conf ≤ s.confidence)).map
            (fun s => (s.category, s.confidence))) := by
    intro t ht
    exact (List.mem_insertionSort confGE).1 (List.mem_of_mem_take ht)
  refine ⟨List.length_take_le 3 _, ?_, ?_, ?_⟩
  · intro t ht
    rcases List.mem_append.1 (hmemtags t ht) with hm | hm
    · by_cases hpc : min_conf ≤ pred.primary_category.confidence
      · rw [if_pos hpc] at hm
        rcases List.mem_singleton.1 hm with rfl
        exact hpc
      · rw [if_neg hpc] at hm
        cases hm
    · rcases List.mem_map.1 hm with ⟨s, hs, rfl⟩
      exact of_decide_eq_true (List.mem_filter.1 hs).2
  · exact (List.sorted_insertionSort confGE _).sublist (List.take_sublist 3 _)
  · intro t ht
    rcases List.mem_append.1 (hmemtags t ht) with hm | hm
    · by_cases hpc : min_conf ≤ pred.primary_category.confidence
      · rw [if_pos hpc] at hm
        rcases List.mem_singleton.1 hm with rfl
        exact Or.inl rfl
      · rw [if_neg hpc] at hm
        cases hm
    · rcases List.mem_map.1 hm with ⟨s, hs, rfl⟩
      exact Or.inr ⟨s, (List.mem_filter.1 hs).1, rfl⟩

/-- C3 counterexample: a primary bug prediction with confidence exactly 4/5
is in the high tier by the claim (confidence at least 0.8), but the code
compares strictly, so only a medium-confidence recommendation is emitted. -/
theorem C3_counterexample :
    (get_recommendations ["is_bug_cat", "x"] [mkRat 4 5, mkRat 1 5]
        (mkRat 1 5)).map
      (fun r => (r.primary_category.category,
        r.primary_category.confidence,
        r.triage_recommendations.map (fun t => t.type)))
      = some ("is_bug_cat", mkRat 4 5, ["medium_confidence_bug"]) := by
  decide

/-- C3 (amended): for every prediction whose primary category is the
actionable bug category, a high_confidence_bug recommendation with priority
high is emitted exactly when the primary confidence is strictly greater
than 4/5; confidence 17/20 = 0.85 yields it, confidence exactly 4/5 does
not. -/
theorem C3_high_bug_iff (classes : List String) (proba : List ℚ)
    (threshold : ℚ) (r : Recommendations)
    (h : get_recommendations classes proba threshold = some r)
    (hcat : r.primary_category.category = "is_bug_cat") :
    (∃ t ∈ r.triage_recommendations,
        t.type = "high_confidence_bug" ∧ t.priority = "high") ↔
      mkRat 4 5 < r.primary_category.confidence := by
  cases hrank : rankPairs classes proba with
  | nil => simp [get_recommendations, hrank] at h
  | cons p0 rest =>
    simp only [get_recommendations, hrank] at h
    have hb := high_rec_mem_base p0.1 p0.2
    by_cases hlow : p0.2 < mkRat 2 5
    · rw [if_pos hlow] at h
      injection h with h
      subst h
      constructor
      · rintro ⟨t, ht, hP⟩
        rcases List.mem_append.1 ht with ht | ht
        · exact (hb.1 ⟨t, ht, hP⟩).2
        · rcases List.mem_singleton.1 ht with rfl
          simp [lowConfidenceRec] at hP
      · intro hconf
        rcases hb.2 ⟨hcat, hconf⟩ with ⟨t, ht, hP⟩
        exact ⟨t, List.mem_append.2 (Or.inl ht), hP⟩
    · rw [if_neg hlow] at h
      injection h with h
      subst h
      constructor
      · rintro ⟨t, ht, hP⟩
        exact (hb.1 ⟨t, ht, hP⟩).2
      · intro hconf
        exact hb.2 ⟨hcat, hconf⟩

/-- C3 witness: the amended equivalence instantiated at the concrete
high-confidence run with primary bug confidence 17/20. -/
theorem C3_high_bug_witness :
    (get_recommendations ["is_bug_cat", "x"] [mkRat 17 20, mkRat 3 20]
        (mkRat 1 5) = some recHighBugDemo) ∧
    ((∃ t ∈ recHighBugDemo.triage_recommendations,
        t.type = "high_confidence_bug" ∧ t.priority = "high") ↔
      mkRat 4 5 < recHighBugDemo.primary_category.confidence) :=
  ⟨by decide,
   C3_high_bug_iff ["is_bug_cat", "x"] [mkRat 17 20, mkRat 3 20]
     (mkRat 1 5) recHighBugDemo (by decide) (by decide)⟩

/-- C4 counterexample: a body consisting of two exclamation marks and no
urgent words yields urgency_score 1, not the 2 the claim predicts: the
exclamation contribution is a 0/1 presence flag per field, not a character
count. -/
theorem C4_counterexample :
    (extract_basic_features "" "" "!!").urgency_score = 1 ∧ 1 ≠ 2 := by
  constructor
  · decide
  · decide

/-- C4 (amended): for every title and body, urgency_score equals the number
of urgent-word occurrences across title and body plus the two 0/1
exclamation presence flags (one for the title, one for the body); that is,
urgency_score = total_n_urgent_words + total_has_exclamation, where the
latter counts fields containing an exclamation mark, not exclamation-mark
characters. -/
theorem C4_urgency_score (text title body : String) :
    (extract_basic_features text title body).urgency_score =
      (countWordList urgent_words title + countWordList urgent_words body) +
      ((pyContains title '!').toNat + (pyContains body '!').toNat) ∧
    (extract_basic_features text title body).urgency_score =
      (extract_basic_features text title body).total_n_urgent_words +
      (extract_basic_features text title body).total_has_exclamation :=
  ⟨rfl, rfl⟩

/-- C5: for every repository name outside the frozen training vocabulary,
feature extraction - and hence predict - fails (the modelled encoder
raises) and never returns a feature vector; in particular no default id is
substituted. -/
theorem C5_unknown_repo_raises (vec bertm : String → List ℚ)
    (predictProba : List ℚ → List ℚ)
    (labelClasses repoClasses : List String)
    (text title body repo : String) (threshold : ℚ)
    (h : repo ∉ repoClasses) :
    extract_all_features vec bertm text repo repoClasses = none ∧
    predict vec bertm predictProba labelClasses repoClasses title body repo
      threshold = none := by
  have he : encoderTransform repoClasses repo = none :=
    encoderTransform_eq_none h
  have hext : ∀ t : String,
      extract_all_features vec bertm t repo repoClasses = none := by
    intro t
    simp [extract_all_features, he]
  exact ⟨hext text, by simp [predict, hext (title ++ "\n" ++ body)]⟩

/-- C5 witness: a concrete unseen repository name makes both feature
extraction and predict fail. -/
theorem C5_unknown_repo_witness :
    ("zzz" ∉ ["a", "b"]) ∧
    (extract_all_features (fun _ => []) (fun _ => []) "t" "zzz" ["a", "b"]
        = none ∧
      predict (fun _ => []) (fun _ => []) (fun _ => []) [] ["a", "b"]
        "t" "b" "zzz" (mkRat 1 5) = none) :=
  ⟨by decide,
   C5_unknown_repo_raises (fun _ => []) (fun _ => []) (fun _ => []) []
     ["a", "b"] "t" "t" "b" "zzz" (mkRat 1 5) (by decide)⟩

/-- C6: for every input text and every known repository, extract_all_features
returns a single row of exactly 24 structural fields + 1 repo_encoded +
250 TF-IDF + 384 embedding = 659 values, matching the frozen feature
order. -/
theorem C6_feature_width (vec bertm : String → List ℚ)
    (text repo : String) (repoClasses : List String)
    (h : repo ∈ repoClasses) :
    (extract_all_features vec bertm text repo repoClasses).map List.length
      = some 659 ∧
    feature_order.length = 659 := by
  rcases encoderTransform_isSome h with ⟨n, hn⟩
  constructor
  · simp [extract_all_features, hn, featureRow_length]
  · simp [feature_order]

/-- C6 witness: the width invariant instantiated at the empty text and a
one-element vocabulary. -/
theorem C6_feature_width_witness :
    ("a" ∈ ["a"]) ∧
    ((extract_all_features (fun _ => []) (fun _ => []) "" "a" ["a"]).map
        List.length = some 659 ∧
      feature_order.length = 659) :=
  ⟨by decide,
   C6_feature_width (fun _ => []) (fun _ => []) "" "a" ["a"] (by decide)⟩

/-- C7: for every body, code_block_count is the number of non-overlapping
occurrences of the triple-backtick marker integer-divided by two; one
complete pair gives 1, a single stray marker gives 0 (the documented
odd-marker undercount). -/
theorem C7_code_block_count :
    (∀ text title body,
      (extract_basic_features text title body).code_block_count =
        pyCount body "```" / 2) ∧
    (extract_basic_features "" "" "```a```").code_block_count = 1 ∧
    (extract_basic_features "" "" "```").code_block_count = 0 :=
  ⟨fun _ _ _ => rfl, by decide, by decide⟩

/-- C8: the ranking pairs each class label with its probability (the sorted
list is a permutation of the zip), sorts by probability descending, and the
tie-break is stable: restricting to any fixed probability value, the sorted
list preserves exactly the original class order.  The ranking is a pure
function of its inputs, hence deterministic across calls. -/
theorem C8_ranking_stable (classes : List String) (proba : List ℚ) :
    (rankPairs classes proba).Perm (classes.zip proba) ∧
    (rankPairs classes proba).Pairwise confGE ∧
    (∀ p : ℚ,
      (rankPairs classes proba).filter (fun x => decide (x.2 = p)) =
        (classes.zip proba).filter (fun x => decide (x.2 = p))) :=
  ⟨rankPairs_perm classes proba, sorted_rankPairs classes proba,
   fun p => filter_insertionSort_conf p (classes.zip proba)⟩

/-- C9: at inference time the four training-time fields (created_hour,
created_day_of_week, created_month, n_days_to_resolution) occupy the first
four positions of the feature row and are always 0, for every text and
every known repository. -/
theorem C9_training_fields_zero (vec bertm : String → List ℚ)
    (text repo : String) (repoClasses : List String)
    (h : repo ∈ repoClasses) :
    (extract_all_features vec bertm text repo repoClasses).map
      (fun row => row.take 4) = some [0, 0, 0, 0] := by
  rcases encoderTransform_isSome h with ⟨n, hn⟩
  simp [extract_all_features, hn, featureRow, extract_basic_features]

/-- C9 witness: the zero training-time fields at a concrete input. -/
theorem C9_training_fields_witness :
    ("a" ∈ ["a"]) ∧
    (extract_all_features (fun _ => []) (fun _ => []) "" "a" ["a"]).map
      (fun row => row.take 4) = some [0, 0, 0, 0] :=
  ⟨by decide,
   C9_training_fields_zero (fun _ => []) (fun _ => []) "" "a" ["a"]
     (by decide)⟩

/-- C10: every result returned by predict carries a repo_context whose
repository is the input repo, whose typical_response_time is the constant
string 2-3 days, and whose similar_issues_count is the constant 5. -/
theorem C10_repo_context (vec bertm : String → List ℚ)
    (predictProba : List ℚ → List ℚ)
    (labelClasses repoClasses : List String)
    (title body repo : String) (threshold : ℚ) (r : Recommendations)
    (h : predict vec bertm predictProba labelClasses repoClasses title body
      repo threshold = some r) :
    r.repo_context = some ⟨repo, "2-3 days", 5⟩ := by
  rcases predict_decomp h with ⟨_, _, _, _, _, _, hrr⟩
  rw [hrr]

/-- C10 witness: the hard-coded repository context at a concrete
stub-classifier run. -/
theorem C10_repo_context_witness :
    recStubDemo.repo_context = some ⟨"r", "2-3 days", 5⟩ :=
  C10_repo_context (fun _ => []) (fun _ => [])
    (fun _ => [mkRat 9 10, mkRat 1 20, mkRat 3 100, mkRat 1 50])
    ["bug", "feature", "doc", "other"] ["r"] "t" "b" "r" (mkRat 1 5)
    recStubDemo (by decide)

end Timely
